import Mathlib

/-!
# qarv pixel-format decoders

A shallow embedding of the decoder plugins declared in
`src/decoders/uyvy422.h` and
`src/decoders/monounpackeddecoders/Mono8SignedFormat.h`.

Classes become structures holding their constructor arguments (and, for a
class template, its template arguments); member functions become functions on
those structures.  `QString` is `String`, `QByteArray` is a list of bytes.
-/

namespace QArv

/-! ## Types shared by the decoders -/

/-- Frame geometry, Qt's `QSize`, with the non-negative width and height of a
frame (spec §3: `width: uint, height: uint`). -/
structure QSize where
  width : Nat
  height : Nat
  deriving DecidableEq, Repr

/-- A raw frame, Qt's `QByteArray`: a sequence of bytes, each read modulo 256. -/
abbrev QByteArray := List Nat

/-- Aravis pixel-format code, `typedef guint32 ArvPixelFormat` in `arv.h`. -/
abbrev ArvPixelFormat := Nat

/-- The Aravis constant named in `Mono8SignedFormat.h`.  It is declared in the
Aravis header `arv.h`, outside the repository; its value there is the GenICam
code of the signed 8-bit mono format. -/
def ARV_PIXEL_FORMAT_MONO_8_SIGNED : ArvPixelFormat := 0x01080002

/-! ## `uyvy422.h` -/

/-- `class UYVY422Decoder`: built by `UYVY422Decoder(QSize size)`. -/
structure UYVY422Decoder where
  size : QSize
  deriving DecidableEq, Repr

/-- `QString pixelFormat() { return "YUV422Packed"; }` of the decoder. -/
def UYVY422Decoder.pixelFormat (_d : UYVY422Decoder) : String := "YUV422Packed"

/-- `QString ffmpegPixelFormat() { return "uyvy422"; }`. -/
def UYVY422Decoder.ffmpegPixelFormat (_d : UYVY422Decoder) : String := "uyvy422"

/-- `bool isGrayscale() { return false; }`. -/
def UYVY422Decoder.isGrayscale (_d : UYVY422Decoder) : Bool := false

/-- `class UYVY422Format`: the plugin object, which has no data members. -/
structure UYVY422Format where
  deriving DecidableEq, Repr

/-- `QString pixelFormat() { return "YUV422Packed"; }` of the factory. -/
def UYVY422Format.pixelFormat (_f : UYVY422Format) : String := "YUV422Packed"

/-- `QArvDecoder* makeDecoder(QSize size) { return new UYVY422Decoder(size); }`. -/
def UYVY422Format.makeDecoder (_f : UYVY422Format) (size : QSize) : UYVY422Decoder :=
  UYVY422Decoder.mk size

/-! ## `Mono8SignedFormat.h` -/

/-- The sample storage types a `MonoUnpackedDecoder` is instantiated with (its
first template argument). -/
inductive InputType where
  | int8_t
  | uint8_t
  | int16_t
  | uint16_t
  deriving DecidableEq, Repr

/-- Whether the C++ integer type is signed. -/
def InputType.isSigned : InputType → Bool
  | .int8_t => true
  | .uint8_t => false
  | .int16_t => true
  | .uint16_t => false

/-- Size in bytes of one value of the C++ integer type. -/
def InputType.bytes : InputType → Nat
  | .int8_t => 1
  | .uint8_t => 1
  | .int16_t => 2
  | .uint16_t => 2

/-- An instance of `MonoUnpackedDecoder<InputType, bitsPerPixel, pixFmt>`
built by its constructor from `size`: the three template arguments and the
constructor argument. -/
structure MonoUnpackedDecoder where
  inputType : InputType
  bitsPerPixel : Nat
  pixFmt : ArvPixelFormat
  size : QSize
  deriving DecidableEq, Repr

/-- `class Mono8SignedFormat`: the plugin object, which has no data members. -/
structure Mono8SignedFormat where
  deriving DecidableEq, Repr

/-- `ArvPixelFormat pixelFormat() { return ARV_PIXEL_FORMAT_MONO_8_SIGNED; }`. -/
def Mono8SignedFormat.pixelFormat (_f : Mono8SignedFormat) : ArvPixelFormat :=
  ARV_PIXEL_FORMAT_MONO_8_SIGNED

/-- `makeDecoder(QSize size)`:
`new MonoUnpackedDecoder<int8_t, 8, ARV_PIXEL_FORMAT_MONO_8_SIGNED>(size)`. -/
def Mono8SignedFormat.makeDecoder (_f : Mono8SignedFormat) (size : QSize) :
    MonoUnpackedDecoder :=
  MonoUnpackedDecoder.mk InputType.int8_t 8 ARV_PIXEL_FORMAT_MONO_8_SIGNED size

/-! ## Decoding

The bodies of the `decode` member functions are not in the headers above.
They are modelled from the specification; the signatures (a decoder and a
frame in, an image out) are those of the headers. -/

/-- Modelled from the spec: the pixel layouts of a `DecodedImage` (§3); the
repository's image type is Qt's `QImage`. -/
inductive Layout where
  | Gray8
  | RGB24
  | RGBA32
  deriving DecidableEq, Repr

/-- Modelled from the spec: `bytesPerPixel(layout)` of §3. -/
def Layout.bytesPerPixel : Layout → Nat
  | .Gray8 => 1
  | .RGB24 => 3
  | .RGBA32 => 4

/-- Modelled from the spec: the decoding errors of the taxonomy (§4.1, §4.4,
§7); the headers declare no error type. -/
inductive FormatError where
  | TruncatedFrame
  | ConversionFailed
  | InvalidGeometry
  deriving DecidableEq, Repr

/-- Modelled from the spec: `DecodedImage`, the output of a decoder (§3),
standing for the `QImage` that `decode` returns. -/
structure DecodedImage where
  pixels : List Nat
  width : Nat
  height : Nat
  stride : Nat
  layout : Layout
  deriving DecidableEq, Repr

/-- Modelled from the spec: the byte order of a multi-byte sample (§3). -/
inductive ByteOrder where
  | LittleEndian
  | BigEndian
  deriving DecidableEq, Repr

/-- Modelled from the spec: why the colour-conversion library rejected a
conversion (§4.4). -/
inductive ConversionError where
  | UnsupportedPairing
  | SizeMismatch
  deriving DecidableEq, Repr

/-- Modelled from the spec: the contract of the colour-conversion library (§6),
an external collaborator the decoder is given:
`convert(rawBytes, sourceFormatTag, width, height, destLayout)`. -/
abbrev ColorConversionAdapter :=
  QByteArray → String → Nat → Nat → Layout → Except ConversionError (List Nat)

/-- Modelled from the spec: `expectedByteSize` of the interleaved YUV422
format, `width*height*2` bytes (§4.1). -/
def expectedByteSizeYUV422 (width height : Nat) : Nat := width * height * 2

/-- Modelled from the spec: the luma samples of an interleaved YUV422 frame,
what the luma-only path of §4.4 outputs.  The spec does not give the byte
layout; in the byte order the class and its tag "uyvy422" name (U Y V Y, two
pixels in four bytes) the luma of pixel `i` is byte `2*i+1`. -/
def UYVY422Decoder.lumaSamples (d : UYVY422Decoder) (frame : QByteArray) : List Nat :=
  (List.range (d.size.width * d.size.height)).map (fun i => frame.getD (2 * i + 1) 0 % 256)

/-- Modelled from the spec: the decoding contract of the chroma-interleaved
family (§4.4) for a `UYVY422Decoder`, whose body is in `uyvy422.cpp` and
`decoders/swscaledecoder.h`, not among the sources.  The frame length is
validated against `expectedByteSize` before anything else (§4.1).  When the
caller only needs luma (destination `Gray8`) the luma samples are output
without invoking colour conversion at all.  Otherwise the transform is
delegated to the conversion adapter with the raw buffer, the source format
tag, the width, the height and the destination layout, and a failure of the
adapter surfaces as `ConversionFailed`.  The spec does not say where
`InvalidGeometry` is raised, so no step of this model raises it. -/
def UYVY422Decoder.decodeTo (d : UYVY422Decoder) (convert : ColorConversionAdapter)
    (dest : Layout) (frame : QByteArray) : Except FormatError DecodedImage :=
  if frame.length < expectedByteSizeYUV422 d.size.width d.size.height then
    Except.error FormatError.TruncatedFrame
  else
    match dest with
    | Layout.Gray8 =>
      Except.ok (DecodedImage.mk (d.lumaSamples frame) d.size.width d.size.height
        d.size.width Layout.Gray8)
    | dest =>
      match convert frame d.ffmpegPixelFormat d.size.width d.size.height dest with
      | Except.error _ => Except.error FormatError.ConversionFailed
      | Except.ok px =>
        Except.ok (DecodedImage.mk px d.size.width d.size.height
          (d.size.width * dest.bytesPerPixel) dest)

/-- Modelled from the spec: `QImage decode(QByteArray frame)` of the header,
whose body is not among the sources.  The call names no destination, so it is
the contract of §4.4 at its stated output layout, `RGB24`. -/
def UYVY422Decoder.decode (d : UYVY422Decoder) (convert : ColorConversionAdapter)
    (frame : QByteArray) : Except FormatError DecodedImage :=
  d.decodeTo convert Layout.RGB24 frame

/-- The bits that store the signed integer `a` in a two's-complement storage
unit of `bits` bits, as C++ stores an `int8_t` or `int16_t`. -/
def twosComplement (bits : Nat) (a : Int) : Nat := (a % 2 ^ bits).toNat

/-- Modelled from the spec: sign extension of the low `W` bits of a storage
unit (§4.2, "signed values are sign-extended from `W` bits"). -/
def signExtend (W : Nat) (u : Nat) : Int :=
  if u % 2 ^ W < 2 ^ (W - 1) then ((u % 2 ^ W : Nat) : Int)
  else ((u % 2 ^ W : Nat) : Int) - 2 ^ W

/-- Modelled from the spec: the scaling of one sample of width `W` to the 8-bit
output (§4.2).  An unsigned sample keeps its most significant 8 bits.  A signed
sample is sign-extended and its sign bit mapped so that the midpoint of the
signed range becomes mid-gray, i.e. offset by `2^(W-1)`, before the same
scaling. -/
def scaleSample (W : Nat) (signed : Bool) (u : Nat) : Nat :=
  let v : Nat := if signed then (signExtend W u + 2 ^ (W - 1)).toNat else u % 2 ^ W
  v >>> (W - 8)

/-- Modelled from the spec: the `i`-th storage unit of `S` bytes of a frame,
read as an integer in the given byte order (§4.2). -/
def readUnit (order : ByteOrder) (S : Nat) (frame : QByteArray) (i : Nat) : Nat :=
  let bs := ((frame.drop (i * S)).take S).map (fun b => b % 256)
  match order with
  | ByteOrder.LittleEndian => bs.foldr (fun b acc => b + 256 * acc) 0
  | ByteOrder.BigEndian => bs.foldl (fun acc b => 256 * acc + b) 0

/-- Modelled from the spec: the output luma a `MonoUnpackedDecoder` gives the
raw storage unit `u`, which is `scaleSample` at the sample width and the
signedness of the decoder's template arguments. -/
def MonoUnpackedDecoder.luma (d : MonoUnpackedDecoder) (u : Nat) : Nat :=
  scaleSample d.bitsPerPixel d.inputType.isSigned u

/-- Modelled from the spec: the body of `MonoUnpackedDecoder::decode`, which is
in `decoders/monounpacked.h`, not among the sources.  The frame length is
validated first (§4.1); each of the `width*height` samples is then read from
its storage unit and scaled, and the output layout is `Gray8` (§4.2). -/
def MonoUnpackedDecoder.decode (d : MonoUnpackedDecoder) (order : ByteOrder)
    (frame : QByteArray) : Except FormatError DecodedImage :=
  if frame.length < d.size.width * d.size.height * d.inputType.bytes then
    Except.error FormatError.TruncatedFrame
  else
    Except.ok (DecodedImage.mk
      ((List.range (d.size.width * d.size.height)).map
        (fun i => d.luma (readUnit order d.inputType.bytes frame i)))
      d.size.width d.size.height d.size.width Layout.Gray8)

/-! ## Lemmas on the sample scaling -/

/-- The signed 8-bit decoder maps a raw byte by flipping its sign bit. -/
theorem luma_mono8signed_byte (f : Mono8SignedFormat) (size : QSize) (u : Nat) :
    (f.makeDecoder size).luma u = (u % 256 + 128) % 256 := by
  simp only [MonoUnpackedDecoder.luma, Mono8SignedFormat.makeDecoder, InputType.isSigned,
    scaleSample, signExtend]
  norm_num
  split_ifs <;> omega

/-- The signed 8-bit decoder maps the sample value `a` to `a + 128`. -/
theorem luma_mono8signed_value (f : Mono8SignedFormat) (size : QSize) (a : Int)
    (hlo : -128 ≤ a) (hhi : a ≤ 127) :
    ((f.makeDecoder size).luma (twosComplement 8 a) : Int) = a + 128 := by
  rw [luma_mono8signed_byte]
  simp only [twosComplement]
  norm_num
  omega

/-! ## Theorems -/

/-- C1: for every frame size, the decoder built by `UYVY422Format::makeDecoder`
reports the pixel-format identifier of its factory, and both are the string
"YUV422Packed". -/
theorem uyvy422_decoder_pixelFormat_matches_factory (f : UYVY422Format) (size : QSize) :
    (f.makeDecoder size).pixelFormat = f.pixelFormat ∧
      (f.makeDecoder size).pixelFormat = "YUV422Packed" ∧
      f.pixelFormat = "YUV422Packed" :=
  ⟨rfl, rfl, rfl⟩

/-- C2: for every frame size, `Mono8SignedFormat::makeDecoder` builds an
unpacked mono decoder over the signed one-byte sample type `int8_t`, with a
sample width of 8 bits and the pixel format `ARV_PIXEL_FORMAT_MONO_8_SIGNED`,
which is the identifier `Mono8SignedFormat::pixelFormat` returns, for the size
that was passed in. -/
theorem mono8signed_makeDecoder_parameters (f : Mono8SignedFormat) (size : QSize) :
    (f.makeDecoder size).inputType = InputType.int8_t ∧
      (f.makeDecoder size).inputType.isSigned = true ∧
      (f.makeDecoder size).inputType.bytes * 8 = 8 ∧
      (f.makeDecoder size).bitsPerPixel = 8 ∧
      (f.makeDecoder size).pixFmt = ARV_PIXEL_FORMAT_MONO_8_SIGNED ∧
      (f.makeDecoder size).pixFmt = f.pixelFormat ∧
      (f.makeDecoder size).size = size :=
  ⟨rfl, rfl, rfl, rfl, rfl, rfl, rfl⟩

/-- C8: `UYVY422Decoder::isGrayscale` is false for every decoder, whatever
size it was built for; in particular for every decoder a factory builds. -/
theorem uyvy422_isGrayscale_false (d : UYVY422Decoder) :
    d.isGrayscale = false ∧
      ∀ (f : UYVY422Format) (size : QSize), (f.makeDecoder size).isGrayscale = false :=
  ⟨rfl, fun _ _ => rfl⟩

/-- C9: the source format tag `ffmpegPixelFormat` is the string "uyvy422" for
every decoder, and differs from the camera-side identifier `pixelFormat`,
which is "YUV422Packed". -/
theorem uyvy422_ffmpegPixelFormat_constant (d : UYVY422Decoder) :
    d.ffmpegPixelFormat = "uyvy422" ∧
      d.pixelFormat = "YUV422Packed" ∧
      d.ffmpegPixelFormat ≠ d.pixelFormat :=
  ⟨rfl, rfl, by show ("uyvy422" : String) ≠ "YUV422Packed"; decide⟩

/-- C3: in the signed 8-bit unpacked mono decoder the midpoint of the signed
range, raw sample value 0, decodes to 128; every raw byte decodes to the byte
with its sign bit flipped, never to the two's-complement byte itself; and a
one-pixel frame holding the sample 0 decodes to a one-pixel Gray8 image of
value 128. -/
theorem mono8signed_midpoint_is_midgray (f : Mono8SignedFormat) (size : QSize) :
    (f.makeDecoder size).luma (twosComplement 8 0) = 128 ∧
      (∀ u : Nat, (f.makeDecoder size).luma u = (u % 256 + 128) % 256) ∧
      (∀ u : Nat, (f.makeDecoder size).luma u ≠ u % 256) ∧
      (∀ order : ByteOrder,
        (f.makeDecoder (QSize.mk 1 1)).decode order [twosComplement 8 0] =
          Except.ok (DecodedImage.mk [128] 1 1 1 Layout.Gray8)) := by
  refine ⟨?_, luma_mono8signed_byte f size, ?_, ?_⟩
  · rw [luma_mono8signed_byte]; decide
  · intro u
    rw [luma_mono8signed_byte]
    omega
  · intro order
    cases order <;> rfl

/-- C4: in the signed 8-bit unpacked mono decoder the map from sample value to
output luma is non-decreasing over the whole range -128..127. -/
theorem mono8signed_luma_monotone (f : Mono8SignedFormat) (size : QSize) (a b : Int)
    (hlo : -128 ≤ a) (hab : a ≤ b) (hhi : b ≤ 127) :
    (f.makeDecoder size).luma (twosComplement 8 a) ≤
      (f.makeDecoder size).luma (twosComplement 8 b) := by
  have ha := luma_mono8signed_value f size a hlo (by omega)
  have hb := luma_mono8signed_value f size b (by omega) hhi
  omega

/-- Witness of C4 at the two ends of the signed range. -/
theorem mono8signed_luma_monotone_witness :
    (Mono8SignedFormat.mk.makeDecoder (QSize.mk 4 1)).luma (twosComplement 8 (-128)) ≤
      (Mono8SignedFormat.mk.makeDecoder (QSize.mk 4 1)).luma (twosComplement 8 127) :=
  mono8signed_luma_monotone Mono8SignedFormat.mk (QSize.mk 4 1) (-128) 127
    (by decide) (by decide) (by decide)

/-- C5: a frame shorter than `width*height*2` bytes makes
`UYVY422Decoder::decode` fail with `TruncatedFrame`, whatever the conversion
adapter would do. -/
theorem uyvy422_decode_truncated (d : UYVY422Decoder) (convert : ColorConversionAdapter)
    (frame : QByteArray) (hshort : frame.length < d.size.width * d.size.height * 2) :
    d.decode convert frame = Except.error FormatError.TruncatedFrame := by
  unfold UYVY422Decoder.decode UYVY422Decoder.decodeTo expectedByteSizeYUV422
  rw [if_pos hshort]

/-- Witness of C5: a 2x1 decoder and a frame of 3 bytes, one short of 4. -/
theorem uyvy422_decode_truncated_witness :
    (UYVY422Format.mk.makeDecoder (QSize.mk 2 1)).decode
        (fun _ _ w h l => Except.ok (List.replicate (w * h * l.bytesPerPixel) 0))
        [16, 128, 16] =
      Except.error FormatError.TruncatedFrame :=
  uyvy422_decode_truncated (UYVY422Format.mk.makeDecoder (QSize.mk 2 1)) _ [16, 128, 16]
    (by decide)

end QArv
